import Mathlib

/-!
Verification of the SmartSpend CSV import processor
(`src/server/src/python/process_csv.py`).

The script is embedded shallowly: strings are `String` / `List Char`,
Python floats are modelled as `ℚ` (all amounts arising in the claims are
finite decimals, on which float arithmetic such as `abs` and sign tests is
exact), pandas cells are `Option String` (`none` models a NaN / missing
cell), and exception propagation is modelled with `Except String`.
-/

set_option autoImplicit false
set_option maxRecDepth 8000
set_option maxHeartbeats 1000000

/-! ### Basic string helpers -/

/-- Substring containment: `substrB needle hay` is true when `needle`
occurs contiguously inside `hay`.  Models the Python expression
`needle in hay` on strings. -/
def substrB (needle : List Char) : List Char → Bool
  | [] => needle.isEmpty
  | c :: t => needle.isPrefixOf (c :: t) || substrB needle t

/-- Containment test on `String`s, needle given second. -/
def containsStr (hay needle : String) : Bool := substrB needle.data hay.data

/-- Lowercasing, as Python `str.lower()` on the ASCII range. -/
def toLowerStr (s : String) : String := ⟨s.data.map Char.toLower⟩

/-! ### Categorizer (`categorize_transaction`) -/

/-- Category-to-keyword table, in the declaration (= Python dict insertion)
order of the source.  The `income` entry has no keywords. -/
def categories : List (String × List String) :=
  [("groceries", ["grocery", "market", "food", "supermarket", "trader", "whole foods"]),
   ("dining", ["restaurant", "cafe", "coffee", "starbucks", "mcdonalds", "takeout"]),
   ("transportation", ["uber", "lyft", "taxi", "transport", "transit", "train", "metro"]),
   ("utilities", ["electric", "water", "gas", "internet", "phone", "bill"]),
   ("entertainment", ["netflix", "spotify", "movie", "theater", "hulu", "disney"]),
   ("shopping", ["amazon", "store", "shop", "target", "walmart", "purchase"]),
   ("housing", ["rent", "mortgage", "home", "hoa", "property"]),
   ("income", [])]

/-- Whether some keyword of the category entry `p` occurs in the
(already lowercased) description `dl`.  Models the inner keyword loop. -/
def hitsCategory (dl : String) (p : String × List String) : Bool :=
  p.2.any (fun k => substrB k.data dl.data)

/-- Embedding of `categorize_transaction`: lowercase the description,
return `"income"` for strictly positive amounts, otherwise return the
first category (in table order) with a matching keyword, defaulting to
`"uncategorized"`. -/
def categorize_transaction (description : String) (amount : ℚ) : String :=
  let d := toLowerStr description
  if 0 < amount then "income"
  else
    match categories.find? (fun p => hitsCategory d p) with
    | some p => p.1
    | none => "uncategorized"

/-! ### Date normalizer (`normalize_date`)

`datetime.strptime` compiles each format into an anchored regex
(`TimeRE` in CPython): `%m` is `1[0-2]|0[1-9]|[1-9]`, `%d` is
`3[01]|[12]\d|0[1-9]|[1-9]`, `%Y` is exactly four digits, `%y` exactly
two (mapped to 1969..2068), separators are literal characters, the match
must consume the whole string, and the resulting `datetime` constructor
validates the calendar date (rejecting, e.g., February 30) with years
restricted to 1..9999.  The parsers below implement exactly that,
including the preference for the two-digit alternative of `%m`/`%d`
with backtracking to the one-digit alternative. -/

/-- Calendar date as produced by a successful `strptime`. -/
structure PyDate where
  year : Nat
  month : Nat
  day : Nat
deriving DecidableEq, Repr

/-- Numeric value of a digit character. -/
def digitVal (c : Char) : Nat := c.toNat - 48

/-- Parse exactly two digits whose value lies in `[lo, hi]` (the
two-digit alternatives of the `%m` / `%d` regexes). -/
def pFix2 (lo hi : Nat) : List Char → Option (Nat × List Char)
  | c1 :: c2 :: r =>
    if c1.isDigit ∧ c2.isDigit then
      let v := 10 * digitVal c1 + digitVal c2
      if lo ≤ v ∧ v ≤ hi then some (v, r) else none
    else none
  | _ => none

/-- Parse a single nonzero digit (the `[1-9]` alternative). -/
def pOne : List Char → Option (Nat × List Char)
  | c :: r => if c.isDigit ∧ c ≠ '0' then some (digitVal c, r) else none
  | [] => none

/-- Parse exactly four digits (the `%Y` regex). -/
def pY4 : List Char → Option (Nat × List Char)
  | a :: b :: c :: d :: r =>
    if a.isDigit ∧ b.isDigit ∧ c.isDigit ∧ d.isDigit then
      some (1000 * digitVal a + 100 * digitVal b + 10 * digitVal c + digitVal d, r)
    else none
  | _ => none

/-- Parse exactly two digits and apply the `%y` century pivot
(00..68 becomes 2000..2068, 69..99 becomes 1969..1999). -/
def pY2 : List Char → Option (Nat × List Char)
  | a :: b :: r =>
    if a.isDigit ∧ b.isDigit then
      let v := 10 * digitVal a + digitVal b
      some (if v ≤ 68 then 2000 + v else 1900 + v, r)
    else none
  | _ => none

/-- Match a literal separator character. -/
def pSep (ch : Char) : List Char → Option (List Char)
  | c :: r => if c = ch then some r else none
  | [] => none

/-- Gregorian month length as enforced by the `datetime` constructor. -/
def daysInMonth (y m : Nat) : Nat :=
  if m = 2 then (if y % 4 = 0 ∧ (y % 100 ≠ 0 ∨ y % 400 = 0) then 29 else 28)
  else if m = 4 ∨ m = 6 ∨ m = 9 ∨ m = 11 then 30 else 31

/-- Validation performed by the `datetime(year, month, day)` constructor;
an invalid combination raises `ValueError`, modelled as `none`. -/
def mkValid (y m d : Nat) : Option PyDate :=
  if 1 ≤ y ∧ y ≤ 9999 ∧ 1 ≤ m ∧ m ≤ 12 ∧ 1 ≤ d ∧ d ≤ daysInMonth y m then
    some ⟨y, m, d⟩
  else none

/-- Validity of a parsed date, exactly the condition `mkValid` checks. -/
def validPyDate (dt : PyDate) : Prop :=
  1 ≤ dt.year ∧ dt.year ≤ 9999 ∧ 1 ≤ dt.month ∧ dt.month ≤ 12 ∧
    1 ≤ dt.day ∧ dt.day ≤ daysInMonth dt.year dt.month

/-- Two-digit-preferring number field (`%m` with `hi = 12`, `%d` with
`hi = 31`): try the two-digit alternative first and fall back to the
one-digit alternative when the continuation fails, exactly like regex
alternation with backtracking. -/
def pNum2or1 {α : Type} (hi : Nat) (s : List Char) (k : Nat → List Char → Option α) : Option α :=
  match pFix2 1 hi s with
  | some (v, r) =>
    match k v r with
    | some x => some x
    | none =>
      match pOne s with
      | some (v1, r1) => k v1 r1
      | none => none
  | none =>
    match pOne s with
    | some (v1, r1) => k v1 r1
    | none => none

/-- Parser for the `%m SEP %d SEP year` formats. -/
def parse_mdY (sep : Char) (pYear : List Char → Option (Nat × List Char)) (s : List Char) :
    Option PyDate :=
  pNum2or1 12 s fun m r1 =>
    (pSep sep r1).bind fun r2 =>
      pNum2or1 31 r2 fun d r3 =>
        (pSep sep r3).bind fun r4 =>
          (pYear r4).bind fun yr =>
            if yr.2 = [] then mkValid yr.1 m d else none

/-- Parser for the `%d SEP %m SEP year` formats. -/
def parse_dmY (sep : Char) (pYear : List Char → Option (Nat × List Char)) (s : List Char) :
    Option PyDate :=
  pNum2or1 31 s fun d r1 =>
    (pSep sep r1).bind fun r2 =>
      pNum2or1 12 r2 fun m r3 =>
        (pSep sep r3).bind fun r4 =>
          (pYear r4).bind fun yr =>
            if yr.2 = [] then mkValid yr.1 m d else none

/-- Parser for the `%Y SEP %m SEP %d` formats. -/
def parse_Ymd (sep : Char) (s : List Char) : Option PyDate :=
  (pY4 s).bind fun yr =>
    (pSep sep yr.2).bind fun r2 =>
      pNum2or1 12 r2 fun m r3 =>
        (pSep sep r3).bind fun r4 =>
          pNum2or1 31 r4 fun d r5 =>
            if r5 = [] then mkValid yr.1 m d else none

/-- Embedding of `datetime.strptime(date_str, fmt)` restricted to the
eight formats the script uses; any other format string is unreachable
from `normalize_date` and is mapped to `none`. -/
def strptime (date_str fmt : String) : Option PyDate :=
  let s := date_str.data
  match fmt with
  | "%m/%d/%Y" => parse_mdY '/' pY4 s
  | "%Y-%m-%d" => parse_Ymd '-' s
  | "%d/%m/%Y" => parse_dmY '/' pY4 s
  | "%m-%d-%Y" => parse_mdY '-' pY4 s
  | "%d-%m-%Y" => parse_dmY '-' pY4 s
  | "%m/%d/%y" => parse_mdY '/' pY2 s
  | "%d/%m/%y" => parse_dmY '/' pY2 s
  | "%Y/%m/%d" => parse_Ymd '/' s
  | _ => none

/-- The ordered format list of the source. -/
def date_formats : List String :=
  ["%m/%d/%Y", "%Y-%m-%d", "%d/%m/%Y", "%m-%d-%Y",
   "%d-%m-%Y", "%m/%d/%y", "%d/%m/%y", "%Y/%m/%d"]

/-- Two-digit zero-padded rendering, as `strftime` renders `%m`/`%d`. -/
def pad2 (n : Nat) : String := ⟨[Nat.digitChar (n / 10 % 10), Nat.digitChar (n % 10)]⟩

/-- Four-digit zero-padded rendering of the year.  This models
`strftime('%Y')`; CPython on some platforms prints years below 1000
without padding, but every date exercised by the claims has a four-digit
year, on which the platforms agree. -/
def pad4 (n : Nat) : String :=
  ⟨[Nat.digitChar (n / 1000 % 10), Nat.digitChar (n / 100 % 10),
    Nat.digitChar (n / 10 % 10), Nat.digitChar (n % 10)]⟩

/-- Rendering of `dt.strftime('%Y-%m-%d')`. -/
def renderIso (d : PyDate) : String :=
  pad4 d.year ++ "-" ++ pad2 d.month ++ "-" ++ pad2 d.day

/-- Embedding of `normalize_date`: try the formats in order, return the
first successful parse rendered as ISO, otherwise return the input. -/
def normalize_date (date_str : String) : String :=
  match date_formats.findSome? (fun fmt => strptime date_str fmt) with
  | some dt => renderIso dt
  | none => date_str

/-! ### Merchant extractor (`extract_merchant`)

The three `re.sub` calls are modelled by scanning the character list
left to right, removing each non-overlapping match and continuing after
it, exactly as `re.sub` does.  The recursions consume at least one
character per step, so the length of the input is enough fuel. -/

/-- Boilerplate phrases of the first `re.sub`, in alternation order
(`txn\*` is the literal text `txn*`).  The input is lowercased before
the substitution, so the `re.I` flag has no further effect. -/
def merchantPhrases : List String :=
  ["payment to", "payment from", "purchase at", "pos ", "txn*",
   "debit card ", "card purchase ", "ach ", "direct deposit "]

/-- Remove every occurrence of any boilerplate phrase, scanning left to
right and trying the alternatives in order at each position. -/
def stripPhrases : Nat → List Char → List Char
  | 0, s => s
  | _ + 1, [] => []
  | n + 1, c :: rest =>
    match merchantPhrases.find? (fun p => p.data.isPrefixOf (c :: rest)) with
    | some p => stripPhrases n ((c :: rest).drop p.data.length)
    | none => c :: stripPhrases n rest

/-- Remove every maximal run of six or more consecutive digits
(the `\d{6,}` substitution). -/
def removeRuns : Nat → List Char → List Char
  | 0, s => s
  | _ + 1, [] => []
  | n + 1, c :: rest =>
    if c.isDigit then
      let run := (c :: rest).takeWhile (fun x => x.isDigit)
      let tail := (c :: rest).dropWhile (fun x => x.isDigit)
      if 6 ≤ run.length then removeRuns n tail else run ++ removeRuns n tail
    else c :: removeRuns n rest

/-- Remove every occurrence of two digits, a slash, and two digits
(the `\d{2}/\d{2}` substitution). -/
def removeDates : Nat → List Char → List Char
  | 0, s => s
  | _ + 1, [] => []
  | n + 1, c :: rest =>
    match c :: rest with
    | a :: b :: sl :: d1 :: d2 :: r =>
      if a.isDigit ∧ b.isDigit ∧ sl = '/' ∧ d1.isDigit ∧ d2.isDigit then removeDates n r
      else c :: removeDates n rest
    | _ => c :: removeDates n rest

/-- Collapse each whitespace run to a single space (the `\s+`
substitution). -/
def collapseWs : Nat → List Char → List Char
  | 0, s => s
  | _ + 1, [] => []
  | n + 1, c :: rest =>
    if c.isWhitespace then ' ' :: collapseWs n ((c :: rest).dropWhile (fun x => x.isWhitespace))
    else c :: collapseWs n rest

/-- Remove leading and trailing whitespace, as `str.strip()`. -/
def stripEnds (l : List Char) : List Char :=
  ((l.dropWhile (fun x => x.isWhitespace)).reverse.dropWhile (fun x => x.isWhitespace)).reverse

/-- Split on whitespace runs discarding empty pieces, as `str.split()`. -/
def splitWs : Nat → List Char → List (List Char)
  | 0, _ => []
  | _ + 1, [] => []
  | n + 1, c :: rest =>
    if c.isWhitespace then splitWs n rest
    else
      (c :: rest).takeWhile (fun x => !x.isWhitespace) ::
        splitWs n ((c :: rest).dropWhile (fun x => !x.isWhitespace))

/-- Python `str.capitalize()`: first character uppercased, the rest
lowercased. -/
def capWord : List Char → List Char
  | [] => []
  | c :: r => c.toUpper :: r.map Char.toLower

/-- Join words with single spaces, as `' '.join(...)`. -/
def joinSpace : List (List Char) → List Char
  | [] => []
  | [w] => w
  | w :: ws => w ++ ' ' :: joinSpace ws

/-- The word list obtained from a description by the cleaning pipeline of
`extract_merchant` (lowercase, phrase removal, digit-run removal,
date-fragment removal, whitespace collapse and strip, split). -/
def cleanedWords (description : String) : List (List Char) :=
  let s0 := (toLowerStr description).data
  let s1 := stripPhrases s0.length s0
  let s2 := removeRuns s1.length s1
  let s3 := removeDates s2.length s2
  let s4 := stripEnds (collapseWs s3.length s3)
  splitWs s4.length s4

/-- Embedding of `extract_merchant`: capitalize and rejoin the cleaned
words, or return the original description when no word remains. -/
def extract_merchant (description : String) : String :=
  let words := cleanedWords description
  if words.isEmpty then description
  else ⟨joinSpace (words.map capWord)⟩

/-! ### Numeric cells and the row pipeline (`process_csv`)

A parsed CSV file is a header list plus rows of cells; a cell is
`Option String`, with `none` modelling a pandas `NaN` (an empty or
missing cell).  Python float values are modelled as `ℚ`; `float(...)`
on a string that fails to parse raises `ValueError`, modelled as `none`
and propagated as an `Except.error`. -/

/-- Digit-string value helper for the float parser. -/
def digitsToNat (l : List Char) : Nat := l.foldl (fun acc c => 10 * acc + digitVal c) 0

/-- Parse an exponent suffix (after `e` / `E`): optional sign and a
nonempty digit run. -/
def parseExp (l : List Char) : Option ℤ :=
  match l with
  | '+' :: r => if r ≠ [] ∧ r.all Char.isDigit then some (digitsToNat r) else none
  | '-' :: r => if r ≠ [] ∧ r.all Char.isDigit then some (-(digitsToNat r : ℤ)) else none
  | r => if r ≠ [] ∧ r.all Char.isDigit then some (digitsToNat r) else none

/-- Scale a mantissa by a power of ten. -/
def applyExp (q : ℚ) (e : ℤ) : ℚ := q * (10 : ℚ) ^ e

/-- Parse an unsigned float literal: `digits`, `digits.digits`,
`.digits` or `digits.`, each with an optional exponent. -/
def parseUnsigned (l : List Char) : Option ℚ :=
  let ip := l.takeWhile Char.isDigit
  let r1 := l.dropWhile Char.isDigit
  match r1 with
  | [] => if ip = [] then none else some (digitsToNat ip)
  | '.' :: r2 =>
    let fp := r2.takeWhile Char.isDigit
    let r3 := r2.dropWhile Char.isDigit
    if ip = [] ∧ fp = [] then none
    else
      let mant : ℚ := (digitsToNat ip : ℚ) + (digitsToNat fp : ℚ) / (10 : ℚ) ^ fp.length
      match r3 with
      | [] => some mant
      | 'e' :: r4 => (parseExp r4).map (applyExp mant)
      | 'E' :: r4 => (parseExp r4).map (applyExp mant)
      | _ => none
  | 'e' :: r4 => if ip = [] then none else (parseExp r4).map (applyExp (digitsToNat ip))
  | 'E' :: r4 => if ip = [] then none else (parseExp r4).map (applyExp (digitsToNat ip))
  | _ => none

/-- Embedding of the Python builtin `float(s)` on decimal and scientific
literals: surrounding whitespace is stripped and an optional sign
parsed.  The special texts `nan` / `inf` and underscore digit grouping
are not modelled (they have no rational counterpart respectively do not
occur in the claims); such inputs are treated as parse failures. -/
def pyFloat (s : String) : Option ℚ :=
  match stripEnds s.data with
  | '+' :: r => parseUnsigned r
  | '-' :: r => (parseUnsigned r).map Neg.neg
  | r => parseUnsigned r

/-- Models `.replace('$', '').replace(',', '')`: every dollar sign and
comma is removed. -/
def cleanNum (s : String) : String := ⟨s.data.filter (fun c => c ≠ '$' ∧ c ≠ ',')⟩

/-- Models `str(cell)` on a pandas cell: `str` of `NaN` is `"nan"`. -/
def cellStr : Option String → String
  | some s => s
  | none => "nan"

/-- One CSV data row: one optional cell per column. -/
abbrev CsvRow : Type := List (Option String)

/-- A parsed CSV file: header names plus data rows. -/
structure Csv where
  headers : List String
  rows : List CsvRow

/-- Header normalization: `col.lower().replace(' ', '_')`. -/
def normCol (c : String) : String :=
  ⟨(toLowerStr c).data.map (fun ch => if ch = ' ' then '_' else ch)⟩

/-- Cell lookup `row[col]` by column name.  Every caller passes a name
drawn from the header list; a row shorter than the headers reads as
`NaN`, as pandas pads short rows. -/
def rowGet (headers : List String) (row : CsvRow) (col : String) : Option String :=
  match headers.findIdx? (fun c => c = col) with
  | some i =>
    match row[i]? with
    | some cell => cell
    | none => none
  | none => none

/-- Resolve one logical column: first header satisfying the substring
test, else the positional fallback `df.columns[idx]`, which raises
(modelled as an error) when there are too few columns. -/
def pickCol (headers : List String) (pred : String → Bool) (idx : Nat) : Except String String :=
  match headers.find? pred with
  | some c => Except.ok c
  | none =>
    match headers[idx]? with
    | some c => Except.ok c
    | none => Except.error "index out of bounds for axis 0"

/-- Embedding of the column-resolution block: date by substring
`"date"` (fallback column 0), description by `"desc"` or `"narr"`
(fallback column 1), amount by `"amount"` or `"sum"` (fallback
column 2). -/
def resolveCols (headers : List String) : Except String (String × String × String) := do
  let dcol ← pickCol headers (fun c => containsStr c "date") 0
  let desc_col ← pickCol headers (fun c => containsStr c "desc" || containsStr c "narr") 1
  let acol ← pickCol headers (fun c => containsStr c "amount" || containsStr c "sum") 2
  pure (dcol, desc_col, acol)

/-- Error text for a failed `float(...)` conversion (the exact message
is implementation-defined and not part of the claims). -/
def floatErr (s : String) : String := "could not convert string to float: " ++ s

/-- Credit half of the debit/credit override: `elif 'credit' in
df.columns and not pd.isna(row['credit'])`. -/
def creditOverride (headers : List String) (row : CsvRow) (amount : ℚ) : Except String ℚ :=
  if "credit" ∈ headers then
    match rowGet headers row "credit" with
    | some cstr =>
      match pyFloat (cleanNum cstr) with
      | some cv => Except.ok cv
      | none => Except.error (floatErr (cleanNum cstr))
    | none => Except.ok amount
  else Except.ok amount

/-- Debit half of the override: `if 'debit' in df.columns and not
pd.isna(row['debit'])`, negating the cleaned debit value and taking
precedence over the credit branch. -/
def debitOrCredit (headers : List String) (row : CsvRow) (amount : ℚ) : Except String ℚ :=
  if "debit" ∈ headers then
    match rowGet headers row "debit" with
    | some dstr =>
      match pyFloat (cleanNum dstr) with
      | some dv => Except.ok (-dv)
      | none => Except.error (floatErr (cleanNum dstr))
    | none => creditOverride headers row amount
  else creditOverride headers row amount

/-- Signed amount of one row: parse the cleaned amount cell (raising on
failure, as `float` does, before any override is considered), then apply
the debit/credit override. -/
def resolveAmount (headers : List String) (acol : String) (row : CsvRow) : Except String ℚ :=
  match pyFloat (cleanNum (cellStr (rowGet headers row acol))) with
  | some amount => debitOrCredit headers row amount
  | none => Except.error (floatErr (cleanNum (cellStr (rowGet headers row acol))))

/-- Output record of the pipeline, with the field set of the transaction
dict built in `process_csv`. -/
structure Transaction where
  date : String
  description : String
  amount : ℚ
  isExpense : Bool
  category : String
  merchant : String
  originalDescription : String
deriving DecidableEq, Repr

/-- Transform one row into a `Transaction`, as the body of the per-row
loop: the resolved signed amount is stored as `abs(amount)` with the
sign recorded in `isExpense`. -/
def processRow (headers : List String) (dcol desc_col acol : String) (row : CsvRow) :
    Except String Transaction :=
  let date_str := cellStr (rowGet headers row dcol)
  let description := cellStr (rowGet headers row desc_col)
  match resolveAmount headers acol row with
  | Except.error e => Except.error e
  | Except.ok amount =>
    Except.ok
      { date := normalize_date date_str
        description := description
        amount := |amount|
        isExpense := decide (amount < 0)
        category := categorize_transaction description amount
        merchant := extract_merchant description
        originalDescription := description }

/-- The accumulation loop over the rows: the first failing row aborts
the whole run (the surrounding `try` has no per-row isolation). -/
def processRows (headers : List String) (dcol desc_col acol : String) :
    List CsvRow → Except String (List Transaction)
  | [] => Except.ok []
  | r :: rs =>
    match processRow headers dcol desc_col acol r with
    | Except.error e => Except.error e
    | Except.ok t =>
      match processRows headers dcol desc_col acol rs with
      | Except.error e => Except.error e
      | Except.ok ts => Except.ok (t :: ts)

/-- Embedding of `process_csv` on an already-loaded CSV: normalize the
headers, resolve the three roles, then run the per-row loop.  An
`Except.error` models the `except` clause returning `{'error': str(e)}`. -/
def process_csv (csv : Csv) : Except String (List Transaction) :=
  let headers := csv.headers.map normCol
  match resolveCols headers with
  | Except.error e => Except.error e
  | Except.ok (dcol, desc_col, acol) => processRows headers dcol desc_col acol csv.rows

/-- Composition of `pd.read_csv` (whose outcome is abstracted as an
`Except`) with the row pipeline; a load failure is caught by the same
`except` clause. -/
def processFile (load : Except String Csv) : Except String (List Transaction) :=
  match load with
  | Except.error e => Except.error e
  | Except.ok csv => process_csv csv

/-! ### Entry point (`__main__` block)

The process is modelled as a function from the user-supplied argument
list (`sys.argv` without the program name) and the outcome of reading a
path, to the single line printed on standard output and the process
exit status.  Falling off the end of the script exits with status 0. -/

/-- JSON string escaping as performed by `json.dumps` (quotes and
backslashes; control characters do not occur in the claims). -/
def jsonEscape (s : String) : String :=
  ⟨s.data.foldr
    (fun c acc =>
      if c = '"' then '\\' :: '"' :: acc
      else if c = '\\' then '\\' :: '\\' :: acc
      else c :: acc) []⟩

/-- A JSON string literal. -/
def jsonString (s : String) : String := "\"" ++ jsonEscape s ++ "\""

/-- Rendering of `json.dumps({"error": msg})`. -/
def jsonError (msg : String) : String :=
  "\x7b\"error\": " ++ jsonString msg ++ "\x7d"

/-- Fractional digit expansion of a rational in `[0, 1)`. -/
def fracDigits : Nat → ℚ → List Char
  | 0, _ => []
  | n + 1, q =>
    if q = 0 then []
    else
      let d := ⌊q * 10⌋
      Nat.digitChar d.toNat :: fracDigits n (q * 10 - d)

/-- Decimal rendering of an amount, as `json.dumps` renders the float
(`repr`-style: integral values print a trailing `.0`).  The shortest
round-trip repr of an IEEE double is approximated by the exact decimal
expansion, which agrees on the decimal literals the pipeline produces. -/
def renderAmount (q : ℚ) : String :=
  (if q < 0 then "-" else "") ++
    (let a := |q|
     let ip := (⌊a⌋).toNat
     let ds := fracDigits 17 (a - ip)
     toString ip ++ "." ++ (if ds.isEmpty then "0" else ⟨ds⟩))

/-- JSON object for one transaction, keys in dict insertion order. -/
def transactionJson (t : Transaction) : String :=
  "\x7b\"date\": " ++ jsonString t.date ++
    ", \"description\": " ++ jsonString t.description ++
    ", \"amount\": " ++ renderAmount t.amount ++
    ", \"isExpense\": " ++ (if t.isExpense then "true" else "false") ++
    ", \"category\": " ++ jsonString t.category ++
    ", \"merchant\": " ++ jsonString t.merchant ++
    ", \"originalDescription\": " ++ jsonString t.originalDescription ++ "\x7d"

/-- Rendering of `json.dumps(result)`: a JSON array on success, the
error object on failure. -/
def renderResult : Except String (List Transaction) → String
  | Except.error e => jsonError e
  | Except.ok ts => "[" ++ String.intercalate ", " (ts.map transactionJson) ++ "]"

/-- Embedding of the `__main__` block: with no argument, print the
usage error and exit via `sys.exit(1)`; otherwise process the file,
print the serialized result and fall off the end of the script
(exit status 0). -/
def mainModel (args : List String) (readFile : String → Except String Csv) : String × Nat :=
  match args with
  | [] => (jsonError "No file path provided", 1)
  | fp :: _ => (renderResult (processFile (readFile fp)), 0)

/-! ### Auxiliary predicates and fixtures used by claim statements -/

/-- Whether the text contains a run of six or more consecutive digits. -/
def hasSixDigitRun : List Char → Bool
  | [] => false
  | c :: rest =>
    if 6 ≤ ((c :: rest).takeWhile (fun x => x.isDigit)).length then true
    else hasSixDigitRun rest

/-- Whether the text contains a two-digit/two-digit date fragment. -/
def hasDDslash : List Char → Bool
  | a :: b :: sl :: d1 :: d2 :: r =>
    (a.isDigit && b.isDigit && (sl == '/') && d1.isDigit && d2.isDigit) ||
      hasDDslash (b :: sl :: d1 :: d2 :: r)
  | _ => false

/-- Whether any boilerplate phrase survives in the (lowercased) text. -/
def hasPhrase (s : String) : Bool :=
  merchantPhrases.any (fun p => substrB p.data (toLowerStr s).data)

/-- Fixture: a well-formed file whose second row has a non-numeric
amount cell. -/
def csvBadAmount : Csv :=
  ⟨["Date", "Description", "Amount"],
   [[some "01/02/2023", some "Trader Joes", some "-12.50"],
    [some "01/03/2023", some "Cafe", some "abc"],
    [some "01/04/2023", some "Metro", some "-2"]]⟩

/-- Fixture: a file whose header row has only two columns, none matching
a name heuristic, so the positional fallback for the amount column
fails. -/
def csvTwoCols : Csv :=
  ⟨["a", "b"], [[some "1", some "2"]]⟩

deriving instance DecidableEq for Except

/-! ### Claims -/

/-- C1: every successfully processed row stores the absolute value of
the resolved signed amount in `amount` (hence `amount` is never
negative), and sets `isExpense` exactly when the signed amount is
strictly negative. -/
theorem c1_amount_abs_sign (headers : List String) (dcol desc_col acol : String)
    (row : CsvRow) (t : Transaction)
    (h : processRow headers dcol desc_col acol row = Except.ok t) :
    ∃ a : ℚ, resolveAmount headers acol row = Except.ok a ∧
      t.amount = |a| ∧ (t.isExpense = true ↔ a < 0) ∧ 0 ≤ t.amount := by
  unfold processRow at h
  cases ha : resolveAmount headers acol row with
  | error e => rw [ha] at h; exact absurd h (by simp)
  | ok a =>
    rw [ha] at h
    injection h with h
    refine ⟨a, rfl, ?_, ?_, ?_⟩
    · rw [← h]
    · rw [← h]; simp [decide_eq_true_eq]
    · rw [← h]; exact abs_nonneg a

/-- Witness for C1 at a concrete expense row. -/
theorem c1_amount_abs_sign_witness :
    ∃ a : ℚ,
      resolveAmount ["date", "description", "amount"] "amount"
          [some "01/02/2023", some "Starbucks Coffee", some "-5"] = Except.ok a ∧
        (Transaction.mk "2023-01-02" "Starbucks Coffee" 5 true "dining"
            "Starbucks Coffee" "Starbucks Coffee").amount = |a| ∧
        ((Transaction.mk "2023-01-02" "Starbucks Coffee" 5 true "dining"
            "Starbucks Coffee" "Starbucks Coffee").isExpense = true ↔ a < 0) ∧
        0 ≤ (Transaction.mk "2023-01-02" "Starbucks Coffee" 5 true "dining"
            "Starbucks Coffee" "Starbucks Coffee").amount :=
  c1_amount_abs_sign ["date", "description", "amount"] "date" "description" "amount"
    [some "01/02/2023", some "Starbucks Coffee", some "-5"] _ (by decide)

/-- C2: a strictly positive resolved signed amount makes the categorizer
return `"income"` unconditionally (for any description, without
consulting the keyword table), and the output row has `isExpense =
false` and `category = "income"`. -/
theorem c2_positive_income :
    (∀ (desc : String) (a : ℚ), 0 < a → categorize_transaction desc a = "income") ∧
      ∀ (headers : List String) (dcol desc_col acol : String) (row : CsvRow)
        (a : ℚ) (t : Transaction),
        resolveAmount headers acol row = Except.ok a → 0 < a →
        processRow headers dcol desc_col acol row = Except.ok t →
        t.isExpense = false ∧ t.category = "income" := by
  constructor
  · intro desc a ha
    unfold categorize_transaction
    rw [if_pos ha]
  · intro headers dcol desc_col acol row a t ha hpos h
    unfold processRow at h
    rw [ha] at h
    injection h with h
    constructor
    · rw [← h]
      simp only [decide_eq_false_iff_not, not_lt]
      exact le_of_lt hpos
    · rw [← h]
      show categorize_transaction _ a = "income"
      unfold categorize_transaction
      rw [if_pos hpos]

/-- Witness for C2 at a concrete income row. -/
theorem c2_positive_income_witness :
    (Transaction.mk "2023-01-02" "Paycheck" 100 false "income"
        "Paycheck" "Paycheck").isExpense = false ∧
      (Transaction.mk "2023-01-02" "Paycheck" 100 false "income"
        "Paycheck" "Paycheck").category = "income" :=
  c2_positive_income.2 ["date", "description", "amount"] "date" "description" "amount"
    [some "2023-01-02", some "Paycheck", some "100"] 100 _ (by decide) (by norm_num)
    (by decide)

/-- C5: for non-positive amounts the categorizer scans the table in
declaration order (groceries, dining, transportation, utilities,
entertainment, shopping, housing) with case-insensitive substring
matching: no keyword match anywhere yields `"uncategorized"`; a
description containing `"coffee"` with no groceries keyword yields
`"dining"` (the first matching category), in particular one containing
both `"coffee"` and `"uber"`. -/
theorem c5_category_table_order :
    (∀ (desc : String) (a : ℚ), a ≤ 0 →
        (∀ p ∈ categories, hitsCategory (toLowerStr desc) p = false) →
        categorize_transaction desc a = "uncategorized") ∧
      (∀ (desc : String) (a : ℚ), a ≤ 0 →
          substrB "coffee".data (toLowerStr desc).data = true →
          hitsCategory (toLowerStr desc)
              ("groceries", ["grocery", "market", "food", "supermarket", "trader",
                "whole foods"]) = false →
          categorize_transaction desc a = "dining") ∧
      categorize_transaction "Coffee with Uber" (-3) = "dining" := by
  refine ⟨?_, ?_, by decide⟩
  · intro desc a ha hnone
    unfold categorize_transaction
    rw [if_neg (not_lt.mpr ha)]
    have : categories.find? (fun p => hitsCategory (toLowerStr desc) p) = none := by
      rw [List.find?_eq_none]
      intro p hp
      simp [hnone p hp]
    rw [this]
  · intro desc a ha hcoffee hgro
    unfold categorize_transaction
    rw [if_neg (not_lt.mpr ha)]
    have hdin : hitsCategory (toLowerStr desc)
        ("dining", ["restaurant", "cafe", "coffee", "starbucks", "mcdonalds",
          "takeout"]) = true := by
      unfold hitsCategory
      rw [List.any_eq_true]
      exact ⟨"coffee", by simp, hcoffee⟩
    rw [show categories.find? (fun p => hitsCategory (toLowerStr desc) p) =
        some ("dining", ["restaurant", "cafe", "coffee", "starbucks", "mcdonalds",
          "takeout"]) by
      unfold categories
      rw [List.find?_cons_of_neg _ (by simpa using hgro),
        List.find?_cons_of_pos _ (by simpa using hdin)]]

/-- Witness for C5 at concrete inputs. -/
theorem c5_category_table_order_witness :
    categorize_transaction "uber coffee run" (-2) = "dining" :=
  c5_category_table_order.2.1 "uber coffee run" (-2) (by norm_num) (by decide) (by decide)

/-- C6: a non-empty debit cell overrides the amount column with the
negated cleaned debit value, regardless of any credit cell; only when
the debit cell is empty (or the column absent) does a non-empty credit
cell set the signed amount to its positive cleaned value.  In both cases
the amount cell itself must already have parsed, since `float` is
applied to it first. -/
theorem c6_debit_credit_precedence :
    (∀ (headers : List String) (acol : String) (row : CsvRow) (a0 dv : ℚ) (dstr : String),
        "debit" ∈ headers →
        rowGet headers row "debit" = some dstr →
        pyFloat (cleanNum dstr) = some dv →
        pyFloat (cleanNum (cellStr (rowGet headers row acol))) = some a0 →
        resolveAmount headers acol row = Except.ok (-dv)) ∧
      ∀ (headers : List String) (acol : String) (row : CsvRow) (a0 cv : ℚ) (cstr : String),
        ("debit" ∈ headers → rowGet headers row "debit" = none) →
        "credit" ∈ headers →
        rowGet headers row "credit" = some cstr →
        pyFloat (cleanNum cstr) = some cv →
        pyFloat (cleanNum (cellStr (rowGet headers row acol))) = some a0 →
        resolveAmount headers acol row = Except.ok cv := by
  constructor
  · intro headers acol row a0 dv dstr hmem hget hdv ha0
    simp only [resolveAmount, ha0, debitOrCredit, if_pos hmem, hget, hdv]
  · intro headers acol row a0 cv cstr hdeb hcmem hcget hcv ha0
    simp only [resolveAmount, ha0, debitOrCredit]
    by_cases hd : "debit" ∈ headers
    · simp only [if_pos hd, hdeb hd, creditOverride, if_pos hcmem, hcget, hcv]
    · simp only [if_neg hd, creditOverride, if_pos hcmem, hcget, hcv]

/-- Witness for C6: a row carrying both a debit and a credit cell
resolves to the negated debit value. -/
theorem c6_debit_credit_precedence_witness :
    resolveAmount ["date", "description", "amount", "debit", "credit"] "amount"
        [some "2023-01-02", some "Rent", some "10", some "7", some "3"] =
      Except.ok (-7) :=
  c6_debit_credit_precedence.1 ["date", "description", "amount", "debit", "credit"]
    "amount" [some "2023-01-02", some "Rent", some "10", some "7", some "3"] 10 7 "7"
    (by decide) (by decide) (by decide) (by decide)

/-- C7: the sample description strips its boilerplate, long digit run
and date fragment, yielding the capitalized merchant `"Starbucks"`,
which contains no six-digit run, no `DD/DD` fragment, and no residual
boilerplate phrase. -/
theorem c7_merchant_sample :
    extract_merchant "POS Purchase At Starbucks 123456789 04/12" = "Starbucks" ∧
      hasSixDigitRun "Starbucks".data = false ∧
      hasDDslash "Starbucks".data = false ∧
      hasPhrase "Starbucks" = false := by
  refine ⟨by decide, by decide, by decide, by decide⟩

/-- C8 counterexample: the claim asserts the result is never an empty
string, but the empty description cleans to zero words and
`extract_merchant` returns it, producing an empty result. -/
theorem c8_counterexample :
    ¬ ∀ d : String, cleanedWords d = [] → extract_merchant d ≠ "" :=
  fun h => h "" (by decide) (by decide)

/-- C8 (amended): when the cleaning steps leave zero words,
`extract_merchant` returns the original description unmodified (casing
preserved); hence the result is empty only when the original description
itself is empty. -/
theorem c8_empty_words_passthrough (d : String) (h : cleanedWords d = []) :
    extract_merchant d = d ∧ (d ≠ "" → extract_merchant d ≠ "") := by
  have hd : extract_merchant d = d := by
    unfold extract_merchant
    rw [h]
    rfl
  exact ⟨hd, fun hne hc => hne (hd.symm.trans hc)⟩

/-- Witness for C8 at a description that cleans to nothing, with
non-trivial casing. -/
theorem c8_empty_words_passthrough_witness :
    extract_merchant "ACH 12/34" = "ACH 12/34" ∧
      ("ACH 12/34" ≠ "" → extract_merchant "ACH 12/34" ≠ "") :=
  c8_empty_words_passthrough "ACH 12/34" (by decide)

/-- Unfolding lemma for one step of the row loop. -/
theorem processRows_cons (headers : List String) (dcol desc_col acol : String)
    (r : CsvRow) (rs : List CsvRow) :
    processRows headers dcol desc_col acol (r :: rs) =
      match processRow headers dcol desc_col acol r with
      | Except.error e => Except.error e
      | Except.ok t =>
        match processRows headers dcol desc_col acol rs with
        | Except.error e => Except.error e
        | Except.ok ts => Except.ok (t :: ts) := rfl

/-- C3: processing is all-or-nothing.  Every run either fails with a
single error or returns one transaction per input row; a failing row
anywhere in the loop aborts the whole run; a non-numeric amount cell or
a header row with fewer than three (heuristically unmatched) columns
each yield a single error object. -/
theorem c3_all_or_nothing :
    (∀ csv : Csv, (∃ e, process_csv csv = Except.error e) ∨
        ∃ ts, process_csv csv = Except.ok ts ∧ ts.length = csv.rows.length) ∧
      (∀ (headers : List String) (dcol desc_col acol : String) (rows : List CsvRow),
          (∃ r ∈ rows, ∃ e, processRow headers dcol desc_col acol r = Except.error e) →
          ∃ e, processRows headers dcol desc_col acol rows = Except.error e) ∧
      (∃ e, process_csv csvBadAmount = Except.error e) ∧
      ∃ e, process_csv csvTwoCols = Except.error e := by
  have hrows : ∀ (headers : List String) (dcol desc_col acol : String) (rows : List CsvRow),
      (∃ e, processRows headers dcol desc_col acol rows = Except.error e) ∨
        ∃ ts, processRows headers dcol desc_col acol rows = Except.ok ts ∧
          ts.length = rows.length := by
    intro headers dcol desc_col acol rows
    induction rows with
    | nil => exact Or.inr ⟨[], rfl, rfl⟩
    | cons r rs ih =>
      cases hr : processRow headers dcol desc_col acol r with
      | error e => exact Or.inl ⟨e, by rw [processRows_cons, hr]⟩
      | ok t =>
        rcases ih with ⟨e, he⟩ | ⟨ts, hts, hlen⟩
        · exact Or.inl ⟨e, by rw [processRows_cons, hr, he]⟩
        · exact Or.inr ⟨t :: ts, by rw [processRows_cons, hr, hts], by simp [hlen]⟩
  refine ⟨?_, ?_, ?_, ?_⟩
  · intro csv
    rcases hc : resolveCols (csv.headers.map normCol) with e | ⟨dcol, desc_col, acol⟩
    · refine Or.inl ⟨e, ?_⟩
      simp only [process_csv]
      rw [hc]
    · rcases hrows (csv.headers.map normCol) dcol desc_col acol csv.rows with
        ⟨e, he⟩ | ⟨ts, hts, hlen⟩
      · refine Or.inl ⟨e, ?_⟩
        simp only [process_csv]
        rw [hc]
        exact he
      · refine Or.inr ⟨ts, ?_, hlen⟩
        simp only [process_csv]
        rw [hc]
        exact hts
  · intro headers dcol desc_col acol rows hbad
    induction rows with
    | nil =>
      obtain ⟨r, hr, _⟩ := hbad
      exact absurd hr (List.not_mem_nil r)
    | cons x xs ih =>
      obtain ⟨r, hr, e, he⟩ := hbad
      rcases List.mem_cons.mp hr with rfl | hr2
      · exact ⟨e, by rw [processRows_cons, he]⟩
      · cases hx : processRow headers dcol desc_col acol x with
        | error e2 => exact ⟨e2, by rw [processRows_cons, hx]⟩
        | ok t =>
          obtain ⟨e3, he3⟩ := ih ⟨r, hr2, e, he⟩
          exact ⟨e3, by rw [processRows_cons, hx, he3]⟩
  · exact ⟨"could not convert string to float: abc", by decide⟩
  · exact ⟨"index out of bounds for axis 0", by decide⟩

/-- Witness for C3: a concrete row list with a malformed amount in its
second row makes the whole loop return an error. -/
theorem c3_all_or_nothing_witness :
    ∃ e, processRows ["date", "description", "amount"] "date" "description" "amount"
        [[some "01/02/2023", some "Trader Joes", some "-12.50"],
         [some "01/03/2023", some "Cafe", some "abc"]] = Except.error e :=
  c3_all_or_nothing.2.1 ["date", "description", "amount"] "date" "description" "amount"
    [[some "01/02/2023", some "Trader Joes", some "-12.50"],
     [some "01/03/2023", some "Cafe", some "abc"]]
    ⟨[some "01/03/2023", some "Cafe", some "abc"], by simp,
     "could not convert string to float: abc", by decide⟩

/-- C9: with zero user arguments the program prints exactly the line
`{"error": "No file path provided"}` and exits with the non-zero status
1, while a load or processing failure prints the JSON error object and
exits with status 0. -/
theorem c9_exit_status :
    (∀ rf : String → Except String Csv,
        mainModel [] rf = ("\x7b\"error\": \"No file path provided\"\x7d", 1)) ∧
      ∀ (fp : String) (rest : List String) (rf : String → Except String Csv) (e : String),
        processFile (rf fp) = Except.error e →
        mainModel (fp :: rest) rf = (jsonError e, 0) := by
  constructor
  · intro rf
    rfl
  · intro fp rest rf e h
    simp only [mainModel]
    rw [h]
    rfl

/-- Witness for C9 at a concrete failing read. -/
theorem c9_exit_status_witness :
    mainModel ["missing.csv"] (fun _ => Except.error "File not found") =
      (jsonError "File not found", 0) :=
  c9_exit_status.2 "missing.csv" [] (fun _ => Except.error "File not found")
    "File not found" rfl

/-- Digit characters are digits. -/
theorem digitChar_isDigit {k : Nat} (h : k < 10) : (Nat.digitChar k).isDigit = true := by
  interval_cases k <;> decide

/-- Digit characters decode to their value. -/
theorem digitVal_digitChar {k : Nat} (h : k < 10) : digitVal (Nat.digitChar k) = k := by
  interval_cases k <;> decide

/-- Digit characters are not the slash separator. -/
theorem digitChar_ne_slash {k : Nat} (h : k < 10) : Nat.digitChar k ≠ '/' := by
  interval_cases k <;> decide

/-- A separator parse succeeds on its own character. -/
theorem pSep_cons (ch : Char) (r : List Char) : pSep ch (ch :: r) = some r := by
  simp [pSep]

/-- A separator parse fails on any other character. -/
theorem pSep_ne {ch c : Char} (h : c ≠ ch) (r : List Char) : pSep ch (c :: r) = none := by
  simp [pSep, h]

/-- The rest returned by `pFix2` is the input after two characters. -/
theorem pFix2_rest {lo hi : Nat} {c1 c2 : Char} {r r2 : List Char} {v : Nat}
    (h : pFix2 lo hi (c1 :: c2 :: r) = some (v, r2)) : r2 = r := by
  simp only [pFix2] at h
  split at h
  · split at h
    · injection h with h2
      injection h2 with ha hb
      exact hb.symm
    · exact absurd h (by simp)
  · exact absurd h (by simp)

/-- The rest returned by `pOne` is the input after one character. -/
theorem pOne_rest {c : Char} {r r2 : List Char} {v : Nat}
    (h : pOne (c :: r) = some (v, r2)) : r2 = r := by
  simp only [pOne] at h
  split at h
  · injection h with h2
    injection h2 with ha hb
    exact hb.symm
  · exact absurd h (by simp)

/-- Two zero-padded digit characters parse back to their value. -/
theorem pFix2_pads {lo hi v : Nat} (hv : v ≤ 99) (hlo : lo ≤ v) (hhi : v ≤ hi)
    (r : List Char) :
    pFix2 lo hi (Nat.digitChar (v / 10 % 10) :: Nat.digitChar (v % 10) :: r) =
      some (v, r) := by
  have h1 : v / 10 % 10 < 10 := Nat.mod_lt _ (by norm_num)
  have h2 : v % 10 < 10 := Nat.mod_lt _ (by norm_num)
  have hv10 : 10 * (v / 10 % 10) + v % 10 = v := by omega
  simp only [pFix2, digitChar_isDigit h1, digitChar_isDigit h2,
    digitVal_digitChar h1, digitVal_digitChar h2, hv10]
  rw [if_pos ⟨trivial, trivial⟩, if_pos ⟨hlo, hhi⟩]

/-- Four zero-padded digit characters parse back to their value. -/
theorem pY4_pads {y : Nat} (hy : y ≤ 9999) (r : List Char) :
    pY4 (Nat.digitChar (y / 1000 % 10) :: Nat.digitChar (y / 100 % 10) ::
        Nat.digitChar (y / 10 % 10) :: Nat.digitChar (y % 10) :: r) = some (y, r) := by
  have h1 : y / 1000 % 10 < 10 := Nat.mod_lt _ (by norm_num)
  have h2 : y / 100 % 10 < 10 := Nat.mod_lt _ (by norm_num)
  have h3 : y / 10 % 10 < 10 := Nat.mod_lt _ (by norm_num)
  have h4 : y % 10 < 10 := Nat.mod_lt _ (by norm_num)
  have hy10 : 1000 * (y / 1000 % 10) + 100 * (y / 100 % 10) + 10 * (y / 10 % 10) +
      y % 10 = y := by omega
  simp only [pY4, digitChar_isDigit h1, digitChar_isDigit h2, digitChar_isDigit h3,
    digitChar_isDigit h4, digitVal_digitChar h1, digitVal_digitChar h2,
    digitVal_digitChar h3, digitVal_digitChar h4, hy10]
  rw [if_pos ⟨trivial, trivial, trivial, trivial⟩]

/-- Month lengths never exceed 31. -/
theorem daysInMonth_le_31 (y m : Nat) : daysInMonth y m ≤ 31 := by
  unfold daysInMonth
  split
  · split <;> omega
  · split <;> omega

/-- A successful `mkValid` returns exactly its arguments, validated. -/
theorem mkValid_eq_some {y m d : Nat} {dt : PyDate} (h : mkValid y m d = some dt) :
    dt = PyDate.mk y m d ∧ 1 ≤ y ∧ y ≤ 9999 ∧ 1 ≤ m ∧ m ≤ 12 ∧ 1 ≤ d ∧
      d ≤ daysInMonth y m := by
  unfold mkValid at h
  by_cases hc : 1 ≤ y ∧ y ≤ 9999 ∧ 1 ≤ m ∧ m ≤ 12 ∧ 1 ≤ d ∧ d ≤ daysInMonth y m
  · rw [if_pos hc] at h
    injection h with h
    exact ⟨h.symm, hc⟩
  · rw [if_neg hc] at h
    exact absurd h (by simp)

/-- A successful backtracking field parse comes from its continuation. -/
theorem pNum2or1_eq_some {α : Type} {hi : Nat} {s : List Char}
    {k : Nat → List Char → Option α} {x : α}
    (h : pNum2or1 hi s k = some x) : ∃ v r, k v r = some x := by
  unfold pNum2or1 at h
  cases hfix : pFix2 1 hi s with
  | none =>
    simp only [hfix] at h
    cases hone : pOne s with
    | none =>
      simp only [hone] at h
      exact absurd h (by simp)
    | some vr =>
      obtain ⟨v1, r1⟩ := vr
      simp only [hone] at h
      exact ⟨v1, r1, h⟩
  | some vr =>
    obtain ⟨v, r⟩ := vr
    simp only [hfix] at h
    cases hk : k v r with
    | some z =>
      simp only [hk] at h
      exact ⟨v, r, by rw [hk, h]⟩
    | none =>
      simp only [hk] at h
      cases hone : pOne s with
      | none =>
        simp only [hone] at h
        exact absurd h (by simp)
      | some vr1 =>
        obtain ⟨v1, r1⟩ := vr1
        simp only [hone] at h
        exact ⟨v1, r1, h⟩

/-- A backtracking field parse succeeds outright when the two-digit
alternative and its continuation both succeed. -/
theorem pNum2or1_first {α : Type} {hi v : Nat} {s r : List Char}
    {k : Nat → List Char → Option α} {x : α}
    (hfix : pFix2 1 hi s = some (v, r)) (hk : k v r = some x) :
    pNum2or1 hi s k = some x := by
  unfold pNum2or1
  simp only [hfix, hk]

/-- Any date produced by a month-first parse is a valid calendar date. -/
theorem parse_mdY_valid {sep : Char} {pYear : List Char → Option (Nat × List Char)}
    {s : List Char} {dt : PyDate} (h : parse_mdY sep pYear s = some dt) :
    validPyDate dt := by
  unfold parse_mdY at h
  obtain ⟨m, r1, hk⟩ := pNum2or1_eq_some h
  obtain ⟨r2, _, hk2⟩ := Option.bind_eq_some.mp hk
  obtain ⟨d, r3, hk3⟩ := pNum2or1_eq_some hk2
  obtain ⟨r4, _, hk4⟩ := Option.bind_eq_some.mp hk3
  obtain ⟨yr, _, hk5⟩ := Option.bind_eq_some.mp hk4
  split at hk5
  · obtain ⟨hdt, hv⟩ := mkValid_eq_some hk5
    rw [hdt]
    exact hv
  · exact absurd hk5 (by simp)

/-- Any date produced by a day-first parse is a valid calendar date. -/
theorem parse_dmY_valid {sep : Char} {pYear : List Char → Option (Nat × List Char)}
    {s : List Char} {dt : PyDate} (h : parse_dmY sep pYear s = some dt) :
    validPyDate dt := by
  unfold parse_dmY at h
  obtain ⟨d, r1, hk⟩ := pNum2or1_eq_some h
  obtain ⟨r2, _, hk2⟩ := Option.bind_eq_some.mp hk
  obtain ⟨m, r3, hk3⟩ := pNum2or1_eq_some hk2
  obtain ⟨r4, _, hk4⟩ := Option.bind_eq_some.mp hk3
  obtain ⟨yr, _, hk5⟩ := Option.bind_eq_some.mp hk4
  split at hk5
  · obtain ⟨hdt, hv⟩ := mkValid_eq_some hk5
    rw [hdt]
    exact hv
  · exact absurd hk5 (by simp)

/-- Any date produced by a year-first parse is a valid calendar date. -/
theorem parse_Ymd_valid {sep : Char} {s : List Char} {dt : PyDate}
    (h : parse_Ymd sep s = some dt) : validPyDate dt := by
  unfold parse_Ymd at h
  obtain ⟨yr, _, hk⟩ := Option.bind_eq_some.mp h
  obtain ⟨r2, _, hk2⟩ := Option.bind_eq_some.mp hk
  obtain ⟨m, r3, hk3⟩ := pNum2or1_eq_some hk2
  obtain ⟨r4, _, hk4⟩ := Option.bind_eq_some.mp hk3
  obtain ⟨d, r5, hk5⟩ := pNum2or1_eq_some hk4
  split at hk5
  · obtain ⟨hdt, hv⟩ := mkValid_eq_some hk5
    rw [hdt]
    exact hv
  · exact absurd hk5 (by simp)

/-- Any successful `strptime` yields a valid calendar date. -/
theorem strptime_valid {s fmt : String} {dt : PyDate}
    (h : strptime s fmt = some dt) : validPyDate dt := by
  unfold strptime at h
  split at h
  · exact parse_mdY_valid h
  · exact parse_Ymd_valid h
  · exact parse_dmY_valid h
  · exact parse_mdY_valid h
  · exact parse_dmY_valid h
  · exact parse_mdY_valid h
  · exact parse_dmY_valid h
  · exact parse_Ymd_valid h
  · exact absurd h (by simp)

/-- The characters of a rendered ISO date. -/
theorem renderIso_data (y m d : Nat) :
    (renderIso ⟨y, m, d⟩).data =
      [Nat.digitChar (y / 1000 % 10), Nat.digitChar (y / 100 % 10),
       Nat.digitChar (y / 10 % 10), Nat.digitChar (y % 10), '-',
       Nat.digitChar (m / 10 % 10), Nat.digitChar (m % 10), '-',
       Nat.digitChar (d / 10 % 10), Nat.digitChar (d % 10)] := rfl

/-- Reduction of `strptime` at the first format. -/
theorem strptime_fmt_mdY (s : String) : strptime s "%m/%d/%Y" = parse_mdY '/' pY4 s.data := rfl

/-- Reduction of `strptime` at the second format. -/
theorem strptime_fmt_Ymd (s : String) : strptime s "%Y-%m-%d" = parse_Ymd '-' s.data := rfl

/-- A rendered ISO date re-parses under `%Y-%m-%d` to the same date. -/
theorem strptime_renderIso_Ymd (dt : PyDate) (h : validPyDate dt) :
    strptime (renderIso dt) "%Y-%m-%d" = some dt := by
  obtain ⟨y, m, d⟩ := dt
  simp only [validPyDate] at h
  obtain ⟨hy1, hy2, hm1, hm2, hd1, hd2⟩ := h
  have hd31 : d ≤ 31 := le_trans hd2 (daysInMonth_le_31 y m)
  rw [strptime_fmt_Ymd, renderIso_data]
  unfold parse_Ymd
  rw [pY4_pads hy2, Option.some_bind]
  simp only [pSep_cons, Option.some_bind]
  refine pNum2or1_first (pFix2_pads (by omega) hm1 hm2 _) ?_
  simp only [pSep_cons, Option.some_bind]
  refine pNum2or1_first (pFix2_pads (by omega) hd1 hd31 _) ?_
  simp only [if_pos rfl]
  unfold mkValid
  simp [hy1, hy2, hm1, hm2, hd1, hd2]

/-- The month-first slash format fails whenever the second and third
characters are not slashes (as in a rendered ISO date, where they are a
digit and a dash). -/
theorem parse_mdY_slash_fail {c1 c2 c3 : Char} {r : List Char}
    {pYear : List Char → Option (Nat × List Char)}
    (h2 : c2 ≠ '/') (h3 : c3 ≠ '/') :
    parse_mdY '/' pYear (c1 :: c2 :: c3 :: r) = none := by
  unfold parse_mdY pNum2or1
  cases hfix : pFix2 1 12 (c1 :: c2 :: c3 :: r) with
  | none =>
    simp only [hfix]
    cases hone : pOne (c1 :: c2 :: c3 :: r) with
    | none => simp only [hone]
    | some vr =>
      obtain ⟨v1, r1⟩ := vr
      have hr1 : r1 = c2 :: c3 :: r := pOne_rest hone
      subst hr1
      simp only [hone, pSep_ne h2, Option.none_bind]
  | some vr =>
    obtain ⟨v, r2⟩ := vr
    have hr2 : r2 = c3 :: r := pFix2_rest hfix
    subst hr2
    simp only [hfix, pSep_ne h3, Option.none_bind]
    cases hone : pOne (c1 :: c2 :: c3 :: r) with
    | none => simp only [hone]
    | some vr1 =>
      obtain ⟨v1, r1⟩ := vr1
      have hr1 : r1 = c2 :: c3 :: r := pOne_rest hone
      subst hr1
      simp only [hone, pSep_ne h2, Option.none_bind]

/-- A rendered ISO date does not parse under the first format
`%m/%d/%Y`, whose separators are slashes. -/
theorem strptime_renderIso_mdY (dt : PyDate) (h : validPyDate dt) :
    strptime (renderIso dt) "%m/%d/%Y" = none := by
  obtain ⟨y, m, d⟩ := dt
  rw [strptime_fmt_mdY, renderIso_data]
  exact parse_mdY_slash_fail
    (digitChar_ne_slash (Nat.mod_lt _ (by norm_num)))
    (digitChar_ne_slash (Nat.mod_lt _ (by norm_num)))

/-- C4: the format list is tried in its fixed order with the first
success rendered as ISO — the ambiguous `"01/02/2023"` yields
`"2023-01-02"` (January 2, month/day precedence) even though the later
`%d/%m/%Y` format would read it as February 1 — and a string matching no
format is returned unchanged. -/
theorem c4_format_order_and_passthrough :
    normalize_date "01/02/2023" = "2023-01-02" ∧
      strptime "01/02/2023" "%d/%m/%Y" = some ⟨2023, 2, 1⟩ ∧
      ∀ s : String, (∀ fmt ∈ date_formats, strptime s fmt = none) → normalize_date s = s := by
  refine ⟨by decide, by decide, ?_⟩
  intro s h
  unfold normalize_date
  rw [List.findSome?_eq_none_iff.mpr h]

/-- Witness for C4 at an unparseable string. -/
theorem c4_format_order_and_passthrough_witness :
    normalize_date "hello" = "hello" :=
  c4_format_order_and_passthrough.2.2 "hello" (by decide)

/-- C10: `normalize_date` is idempotent — a successful parse renders to
an ISO string that re-parses (under the second format) to the same date,
and an unparseable string passes through unchanged on every
application. -/
theorem c10_normalize_date_idempotent (s : String) :
    normalize_date (normalize_date s) = normalize_date s := by
  cases hf : date_formats.findSome? (fun fmt => strptime s fmt) with
  | none =>
    have h1 : normalize_date s = s := by
      unfold normalize_date
      rw [hf]
    rw [h1]
    exact h1
  | some dt =>
    have hvalid : validPyDate dt := by
      obtain ⟨fmt, _, hfmt⟩ := List.exists_of_findSome?_eq_some hf
      exact strptime_valid hfmt
    have h1 : normalize_date s = renderIso dt := by
      unfold normalize_date
      rw [hf]
    have hsecond : date_formats.findSome? (fun fmt => strptime (renderIso dt) fmt) =
        some dt := by
      show List.findSome? _ ("%m/%d/%Y" :: ["%Y-%m-%d", "%d/%m/%Y", "%m-%d-%Y",
        "%d-%m-%Y", "%m/%d/%y", "%d/%m/%y", "%Y/%m/%d"]) = some dt
      rw [List.findSome?_cons]
      simp only [strptime_renderIso_mdY dt hvalid]
      rw [List.findSome?_cons]
      simp only [strptime_renderIso_Ymd dt hvalid]
    rw [h1]
    unfold normalize_date
    rw [hsecond]

/-- Witness for C10 at a parsing input (idempotence on a date that does
parse). -/
theorem c10_normalize_date_idempotent_witness :
    normalize_date (normalize_date "12/31/1999") = normalize_date "12/31/1999" :=
  c10_normalize_date_idempotent "12/31/1999"
